import Mathlib

/-
Verification of the poeminv rule-matching and emission-calculation core.

The Python modules poeminv/config.py, poeminv/emission.py and
poeminv/event.py are shallowly embedded below: Python dictionaries of
dynamically typed values become association lists of String × Value,
numbers become rationals, and code that can raise an exception returns an
Option (none standing for the raised exception).
-/

namespace Poeminv

/-- A dynamically typed Python value as it appears in the value bags and
config data payloads of config.py: None, a number, or a string. -/
inductive Value where
  | null : Value
  | num (q : ℚ) : Value
  | str (s : String) : Value
deriving DecidableEq, Repr

/-- Python equality (the == operator) between two values: None equals only
None, numbers compare numerically, strings compare as strings, and values
of different kinds are unequal. -/
def Value.pyEq : Value → Value → Bool
  | .null, .null => true
  | .num a, .num b => a == b
  | .str a, .str b => a == b
  | _, _ => false

/-- Python truthiness of a value: None is falsy, a number is truthy iff it
is nonzero, a string is truthy iff it is nonempty. -/
def Value.truthy : Value → Bool
  | .null => false
  | .num q => q != 0
  | .str s => !(s == "")

/-- A Python dict with string keys, embedded as an association list in
insertion order. All operations below assume (and preserve) distinct keys,
as Python dicts guarantee. -/
abbrev Dict := List (String × Value)

/-- Dictionary lookup, dict.get(k): the value of the first entry with the
given key. -/
def dget (d : Dict) (k : String) : Option Value :=
  (d.find? (fun p => p.1 == k)).map (fun p => p.2)

/-- Key membership test, k in dict. -/
def dhas (d : Dict) (k : String) : Bool :=
  d.any (fun p => p.1 == k)

/-- The list of keys of a dictionary. -/
def dkeys (d : Dict) : List String :=
  d.map (fun p => p.1)

/-- Python dict union a | b: the keys of a (values taken from b where b
also has the key), followed by the keys of b not present in a. -/
def dunion (a b : Dict) : Dict :=
  a.map (fun p => (p.1, (dget b p.1).getD p.2)) ++ b.filter (fun p => !(dhas a p.1))

/-- Removal of a key, del d[k] (a no-op when the key is absent; the caller
models the KeyError where Python would raise one). -/
def derase (d : Dict) (k : String) : Dict :=
  d.filter (fun p => !(p.1 == k))

/-- dict.setdefault(k, v): unchanged when k is present, otherwise the entry
(k, v) is appended. -/
def dsetdefault (d : Dict) (k : String) (v : Value) : Dict :=
  if dhas d k then d else d ++ [(k, v)]

/-- Assignment d[k] = v: replaces the value of an existing entry in place,
or appends a new entry. -/
def dset (d : Dict) (k : String) (v : Value) : Dict :=
  if dhas d k then d.map (fun p => if p.1 == k then (k, v) else p) else d ++ [(k, v)]

theorem dhas_eq_isSome (d : Dict) (k : String) : dhas d k = (dget d k).isSome := by
  induction d with
  | nil => rfl
  | cons p d ih =>
    by_cases h : (p.1 == k) = true
    · simp [dhas, dget, List.find?_cons, h]
    · have h' : (p.1 == k) = false := by simpa using h
      have e1 : dhas (p :: d) k = dhas d k := by simp [dhas, h']
      have e2 : dget (p :: d) k = dget d k := by simp [dget, List.find?_cons, h']
      rw [e1, e2, ih]

theorem dhas_iff_mem (d : Dict) (k : String) : dhas d k = true ↔ k ∈ dkeys d := by
  simp only [dhas, dkeys, List.any_eq_true, List.mem_map]
  constructor
  · rintro ⟨p, hp, hk⟩
    exact ⟨p, hp, by simpa using hk⟩
  · rintro ⟨p, hp, hk⟩
    exact ⟨p, hp, by simpa using hk⟩

theorem dget_eq_none_of_not_dhas {d : Dict} {k : String} (h : dhas d k = false) :
    dget d k = none := by
  have h2 := dhas_eq_isSome d k
  rw [h] at h2
  exact Option.not_isSome_iff_eq_none.mp (by rw [← h2]; simp)

theorem dget_isSome_of_dhas {d : Dict} {k : String} (h : dhas d k = true) :
    (dget d k).isSome = true := by
  rw [← dhas_eq_isSome, h]

theorem dget_append (x y : Dict) (k : String) :
    dget (x ++ y) k = (dget x k).or (dget y k) := by
  simp only [dget, List.find?_append]
  cases x.find? (fun p => p.1 == k) <;> simp

theorem dget_map_override (a b : Dict) (k : String) :
    dget (a.map (fun p => (p.1, (dget b p.1).getD p.2))) k
      = (a.find? (fun p => p.1 == k)).map (fun p => (dget b p.1).getD p.2) := by
  induction a with
  | nil => rfl
  | cons p a ih =>
    by_cases h : (p.1 == k) = true
    · simp [dget, List.find?_cons, h]
    · have h' : (p.1 == k) = false := by simpa using h
      have e1 : dget ((p :: a).map (fun p => (p.1, (dget b p.1).getD p.2))) k
          = dget (a.map (fun p => (p.1, (dget b p.1).getD p.2))) k := by
        simp [dget, List.find?_cons, h']
      rw [e1, ih]
      simp [List.find?_cons, h']

theorem dget_filter_of_not_dhas {a : Dict} {k : String} (b : Dict) (h : dhas a k = false) :
    dget (b.filter (fun p => !(dhas a p.1))) k = dget b k := by
  induction b with
  | nil => rfl
  | cons q b ih =>
    by_cases hq : q.1 == k
    · have hqk : q.1 = k := by simpa using hq
      have hda : dhas a q.1 = false := by rw [hqk]; exact h
      simp [dget, List.filter_cons, hda, List.find?_cons, hq]
    · by_cases hda : dhas a q.1 = true
      · have h1 : dget ((q :: b).filter (fun p => !(dhas a p.1))) k
            = dget (b.filter (fun p => !(dhas a p.1))) k := by
          simp [List.filter_cons, hda]
        have h2 : dget (q :: b) k = dget b k := by
          simp [dget, List.find?_cons, hq]
        rw [h1, h2, ih]
      · have hda' : dhas a q.1 = false := by simpa using hda
        have h1 : (q :: b).filter (fun p => !(dhas a p.1))
            = q :: b.filter (fun p => !(dhas a p.1)) := by
          simp [List.filter_cons, hda']
        rw [h1]
        have h2 : dget (q :: b.filter (fun p => !(dhas a p.1))) k
            = dget (b.filter (fun p => !(dhas a p.1))) k := by
          simp [dget, List.find?_cons, hq]
        have h3 : dget (q :: b) k = dget b k := by
          simp [dget, List.find?_cons, hq]
        rw [h2, h3, ih]

theorem dget_dunion (a b : Dict) (k : String) :
    dget (dunion a b) k = if dhas b k then dget b k else dget a k := by
  unfold dunion
  rw [dget_append, dget_map_override]
  by_cases ha : dhas a k = true
  · obtain ⟨p0, hp0⟩ : ∃ p0, a.find? (fun p => p.1 == k) = some p0 := by
      have hs := dget_isSome_of_dhas ha
      simp only [dget, Option.isSome_map'] at hs
      exact Option.isSome_iff_exists.mp hs
    have hp0k : p0.1 = k := by
      have := List.find?_some hp0
      simpa using this
    have hgak : dget a k = some p0.2 := by
      simp [dget, hp0]
    rw [hp0]
    by_cases hb : dhas b k = true
    · obtain ⟨w, hw⟩ := Option.isSome_iff_exists.mp (dget_isSome_of_dhas hb)
      simp [hp0k, hw, hb, Option.or]
    · have hb' : dhas b k = false := by simpa using hb
      have hbn := dget_eq_none_of_not_dhas hb'
      simp [hp0k, hbn, hb', Option.or, hgak]
  · have ha' : dhas a k = false := by simpa using ha
    have hfn : a.find? (fun p => p.1 == k) = none := by
      have hn := dget_eq_none_of_not_dhas ha'
      simp only [dget, Option.map_eq_none'] at hn
      exact hn
    rw [hfn]
    simp only [Option.map_none', Option.none_or]
    rw [dget_filter_of_not_dhas b ha']
    by_cases hb : dhas b k = true
    · simp [hb]
    · have hb' : dhas b k = false := by simpa using hb
      simp [hb', dget_eq_none_of_not_dhas ha', dget_eq_none_of_not_dhas hb']

theorem map_fst_filter_key (g : String → Bool) (l : Dict) :
    (l.filter (fun p => g p.1)).map (fun p => p.1)
      = (l.map (fun p => p.1)).filter g := by
  induction l with
  | nil => rfl
  | cons p l ih =>
    by_cases h : g p.1 = true
    · simp [List.filter_cons, h, ih]
    · have h' : g p.1 = false := by simpa using h
      simp [List.filter_cons, h', ih]

theorem dkeys_dunion (a b : Dict) :
    dkeys (dunion a b) = dkeys a ++ (dkeys b).filter (fun k => !(dhas a k)) := by
  unfold dunion dkeys
  rw [List.map_append]
  congr 1
  · rw [List.map_map]
    rfl
  · exact map_fst_filter_key (fun k => !(dhas a k)) b

theorem dkeys_dunion_perm {a b : Dict}
    (ha : (dkeys a).Nodup) (hb : (dkeys b).Nodup)
    (hsub : ∀ k ∈ dkeys a, k ∈ dkeys b) :
    (dkeys (dunion a b)).Perm (dkeys b) := by
  rw [dkeys_dunion, List.perm_iff_count]
  intro x
  rw [List.count_append]
  by_cases hx : x ∈ dkeys a
  · have h1 : (dkeys a).count x = 1 := List.count_eq_one_of_mem ha hx
    have hdx : dhas a x = true := (dhas_iff_mem a x).mpr hx
    have h2 : ((dkeys b).filter (fun k => !(dhas a k))).count x = 0 := by
      apply List.count_eq_zero_of_not_mem
      intro hmem
      have hp := List.of_mem_filter hmem
      rw [hdx] at hp
      simp at hp
    have h3 : (dkeys b).count x = 1 := List.count_eq_one_of_mem hb (hsub x hx)
    omega
  · have h1 : (dkeys a).count x = 0 := List.count_eq_zero_of_not_mem hx
    have hdx : dhas a x = false := by
      by_contra hc
      exact hx ((dhas_iff_mem a x).mp (by simpa using hc))
    have h2 : ((dkeys b).filter (fun k => !(dhas a k))).count x = (dkeys b).count x :=
      List.count_filter (by simp [hdx])
    omega

theorem dkeys_dunion_nodup {a b : Dict}
    (ha : (dkeys a).Nodup) (hb : (dkeys b).Nodup) :
    (dkeys (dunion a b)).Nodup := by
  rw [dkeys_dunion]
  refine List.Nodup.append ha (hb.filter _) ?_
  intro x hxa hxb
  have hdx : dhas a x = true := (dhas_iff_mem a x).mpr hxa
  have hp := List.of_mem_filter hxb
  rw [hdx] at hp
  simp at hp

theorem dsetdefault_of_dhas {d : Dict} {k : String} (v : Value) (h : dhas d k = true) :
    dsetdefault d k v = d := by
  simp [dsetdefault, h]

/-- A criterion from config.py attached to an attribute name: equality with
a literal value, membership in a half-open numeric range, or a disjunction
of sub-criteria for the same name. -/
inductive Criterion where
  | equals (name : String) (value : Value) : Criterion
  | range (name : String) (ge lt : ℚ) : Criterion
  | disjunction (name : String) (subs : List Criterion) : Criterion

mutual

/-- Criterion.matches of config.py. EqualsCriterion compares the bag value
with Python equality and is false when the name is absent (KeyError is
caught). RangeCriterion checks ge ≤ v < lt and is false when the name is
absent or the value is not a number (KeyError and TypeError are caught).
DisjunctionCriterion is true iff any sub-criterion matches. -/
def Criterion.matches (values : Dict) : Criterion → Bool
  | .equals n v =>
    match dget values n with
    | some w => w.pyEq v
    | none => false
  | .range n g l =>
    match dget values n with
    | some (.num q) => decide (g ≤ q) && decide (q < l)
    | some (.str _) => false
    | some .null => false
    | none => false
  | .disjunction _ subs => Criterion.anyMatches values subs

/-- The any(...) over the sub-criteria of a DisjunctionCriterion. -/
def Criterion.anyMatches (values : Dict) : List Criterion → Bool
  | [] => false
  | c :: cs => Criterion.matches values c || Criterion.anyMatches values cs

end

/-- A MatchConfig from config.py: a mapping of attribute names to criteria
plus an opaque data payload. -/
structure MatchConfig where
  criteria : List (String × Criterion)
  data : Dict

/-- MatchConfig.matches: true iff every criterion matches the value bag
(vacuously true for a criteria-less config). -/
def MatchConfig.matches (mc : MatchConfig) (values : Dict) : Bool :=
  mc.criteria.all (fun p => p.2.matches values)

/-- The VALID_SHIP_TYPE_SIZE_UNITS table of config.py mapping each ship
type to its list of valid size units, in source order. -/
def validShipTypeSizeUnits : List (String × List String) := [
  ("barge", ["n/a"]), ("crew_supply", ["n/a"]), ("excursion", ["n/a"]),
  ("fishing", ["n/a"]), ("towboat_pushboat", ["n/a"]), ("dredging", ["n/a"]),
  ("sailing", ["n/a"]), ("recreational", ["n/a"]), ("pilot", ["n/a"]),
  ("tug", ["n/a"]), ("workboat", ["n/a"]), ("government", ["n/a"]),
  ("bulk_carrier", ["dwt"]), ("chemical_tanker", ["dwt"]),
  ("container_ship", ["teu"]), ("cruise", ["gt"]),
  ("ferry_passenger", ["gt", "n/a"]), ("ferry_roro_passenger", ["gt"]),
  ("general_cargo", ["dwt"]), ("liquified_gas_tanker", ["dwt"]),
  ("offshort_support_drillship", ["n/a"]), ("oil_tanker", ["dwt"]),
  ("other_service", ["n/a"]), ("other_tanker", ["n/a"]), ("reefer", ["n/a"]),
  ("roro", ["gt"]), ("vehicle_carrier", ["number_vehicles"]), ("misc", ["n/a"])]

/-- Lookup of VALID_SHIP_TYPE_SIZE_UNITS by ship type (none models the
KeyError for an unknown ship type). -/
def lookupShipTypeUnits (st : String) : Option (List String) :=
  (validShipTypeSizeUnits.find? (fun p => p.1 == st)).map (fun p => p.2)

/-- The VesselInfo dataclass of config.py, with its eight fields in
declaration order. Enum-valued fields carry their Python value: the
engine category is its lowercase StrEnum value, the NOx tier its IntEnum
number. -/
structure VesselInfo where
  maxSpeed : ℚ
  engineKw : ℚ
  engineRpm : ℚ
  engineCategory : String
  engineNoxTier : ℚ
  shipType : String
  size : ℚ
  sizeUnit : String
deriving DecidableEq, Repr

/-- The construction-time validation of VesselInfo.__post_init__: positive
speed, engine power and rpm, a known engine category and NOx tier, a
non-negative size, and a size unit valid for the ship type. -/
def VesselInfo.validInfo (vi : VesselInfo) : Bool :=
  decide (0 < vi.maxSpeed) && decide (0 < vi.engineKw) && decide (0 < vi.engineRpm)
  && ["c1", "c2", "c3"].contains vi.engineCategory
  && ([0, 1, 2, 3] : List ℚ).contains vi.engineNoxTier
  && decide (0 ≤ vi.size)
  && (match lookupShipTypeUnits vi.shipType with
      | some units => units.contains vi.sizeUnit
      | none => false)

/-- dataclasses.asdict(vessel_info): the eight fields as a value bag. -/
def VesselInfo.asDict (vi : VesselInfo) : Dict := [
  ("max_speed", .num vi.maxSpeed), ("engine_kw", .num vi.engineKw),
  ("engine_rpm", .num vi.engineRpm), ("engine_category", .str vi.engineCategory),
  ("engine_nox_tier", .num vi.engineNoxTier), ("ship_type", .str vi.shipType),
  ("size", .num vi.size), ("size_unit", .str vi.sizeUnit)]

/-- The values of the Mode StrEnum of event.py. -/
def modeValues : List String := ["transit", "maneuvering", "hotelling", "anchorage"]

/-- The engine groups for which emission factors are resolved. -/
def emissionsEngineGroups : List String := ["propulsion", "auxiliary", "boiler"]

/-- The engine groups for which default engine powers are resolved. -/
def enginePowerEngineGroups : List String := ["auxiliary", "boiler"]

/-- Whether an optional value is a number (isinstance(x, numbers.Number)
after a plain dict lookup). -/
def isNumV : Option Value → Bool
  | some (.num _) => true
  | _ => false

/-- Whether dict.get(k) is absent or a number, as checked by
isinstance(data.get(k, default), Number) with a numeric default. -/
def isNumOrAbsentV : Option Value → Bool
  | none => true
  | some (.num _) => true
  | _ => false

/-- data.get(k, default) followed by use in arithmetic: the default when the
key is absent, the number stored there, or none (a TypeError) when the
stored value is not a number. -/
def getNumD (d : Dict) (k : String) (dflt : ℚ) : Option ℚ :=
  match dget d k with
  | none => some dflt
  | some (.num q) => some q
  | some _ => none

/-- data[k] followed by use in arithmetic: none models the KeyError for an
absent key or the TypeError for a non-numeric value. -/
def getNumStrict (d : Dict) (k : String) : Option ℚ :=
  match dget d k with
  | some (.num q) => some q
  | _ => none

/-- One entry of the range_factors payload of a low-load adjustment rule:
a half-open load range with its per-pollutant factor map. -/
structure RangeFactors where
  ge : ℚ
  lt : ℚ
  factors : List (String × ℚ)

/-- A low-load adjustment rule: criteria plus its range_factors payload. -/
structure LowLoadConfig where
  criteria : List (String × Criterion)
  rangeFactors : List RangeFactors

/-- The EmissionConfigs rule repository of config.py: base emission values
and pollutant definitions keyed by name, default engine power rules, and
low-load adjustment rules, all in file order. -/
structure EmissionConfigs where
  baseValues : List (String × List MatchConfig)
  pollutants : List (String × List MatchConfig)
  enginePowers : List MatchConfig
  lowLoadAdjustmentFactors : List LowLoadConfig

/-- The loop of EmissionConfigs._assert_valid_config that starts from the
missing engine groups auxiliary and boiler and discards every group for
which a rule matching on engine_group alone matches. -/
def enginePowerMissing : List MatchConfig → List String → List String
  | [], missing => missing
  | c :: rest, missing =>
    let missing2 :=
      if !c.criteria.isEmpty && c.criteria.all (fun p => p.1 == "engine_group") then
        missing.filter (fun g =>
          match c.criteria.find? (fun p => p.1 == "engine_group") with
          | some p => !(p.2.matches [("engine_group", .str g)])
          | none => true)
      else missing
    enginePowerMissing rest missing2

/-- EmissionConfigs._assert_valid_config: every base value has a numeric
g_per_kwh; every pollutant rule names an existing base value and has
numeric multiplier and offset_g_per_kwh when present; every default
engine-power rule has a numeric power for every mode and rules matching on
engine_group alone cover auxiliary and boiler; every low-load rule has a
non-empty range_factors payload. -/
def EmissionConfigs.validConfig (cfg : EmissionConfigs) : Bool :=
  cfg.baseValues.all (fun bv => bv.2.all (fun c => isNumV (dget c.data "g_per_kwh")))
  && cfg.pollutants.all (fun pl => pl.2.all (fun c =>
       (match dget c.data "base_value_name" with
        | some (.str s) => cfg.baseValues.any (fun bv => bv.1 == s)
        | _ => false)
       && isNumOrAbsentV (dget c.data "multiplier")
       && isNumOrAbsentV (dget c.data "offset_g_per_kwh")))
  && cfg.enginePowers.all (fun c => modeValues.all (fun m => isNumV (dget c.data m)))
  && (enginePowerMissing cfg.enginePowers ["auxiliary", "boiler"]).isEmpty
  && cfg.lowLoadAdjustmentFactors.all (fun c => !c.rangeFactors.isEmpty)

/-- The matching context engine_group=engine_group, **dc.asdict(vessel_info)
used by the config_for lookups. -/
def matchContext (vi : VesselInfo) (engineGroup : String) : Dict :=
  ("engine_group", .str engineGroup) :: vi.asDict

/-- next(self._matching_configs(configs, **values)): the data payload of the
first config in list order whose criteria match, none on StopIteration. -/
def firstMatchingData (configs : List MatchConfig) (values : Dict) : Option Dict :=
  (configs.find? (fun c => c.matches values)).map (fun c => c.data)

/-- The per-pollutant body of EmissionConfigs._emission_factors_for. The
outer Option models a raised exception (KeyError or TypeError on malformed
data, never reachable for validated configs); the inner Option is none when
the pollutant is skipped because no pollutant rule or no base-value rule
matches, and carries the computed factor otherwise. -/
def pollutantFactor (baseValues : List (String × List MatchConfig))
    (configs : List MatchConfig) (ctx : Dict) : Option (Option ℚ) :=
  match firstMatchingData configs ctx with
  | none => some none
  | some pdata =>
    match dget pdata "base_value_name" with
    | some (.str bname) =>
      match (baseValues.find? (fun bv => bv.1 == bname)).map (fun bv => bv.2) with
      | none => none
      | some bconfigs =>
        match firstMatchingData bconfigs ctx with
        | none => some none
        | some bdata =>
          match getNumD pdata "offset_g_per_kwh" 0, getNumStrict bdata "g_per_kwh",
              getNumD pdata "multiplier" 1 with
          | some off, some g, some mult => some (some (off + g * mult))
          | _, _, _ => none
    | _ => none

/-- The loop of _emission_factors_for over self._pollutants.items(),
building the emission factor dict in iteration order. -/
def emissionFactorsLoop (baseValues : List (String × List MatchConfig)) (ctx : Dict) :
    List (String × List MatchConfig) → Option (List (String × ℚ))
  | [] => some []
  | (pollutant, configs) :: rest =>
    match pollutantFactor baseValues configs ctx with
    | none => none
    | some none => emissionFactorsLoop baseValues ctx rest
    | some (some q) =>
      (emissionFactorsLoop baseValues ctx rest).map (fun t => (pollutant, q) :: t)

/-- EmissionConfigs._emission_factors_for(vessel_info, engine_group). -/
def EmissionConfigs.emissionFactorsFor (cfg : EmissionConfigs) (vi : VesselInfo)
    (engineGroup : String) : Option (List (String × ℚ)) :=
  emissionFactorsLoop cfg.baseValues (matchContext vi engineGroup) cfg.pollutants

/-- The for-break-else loop of EmissionConfigs._engine_powers_for: the first
config whose criteria match, or the loop variable left over after full
iteration (the last config) when none matches; none for an empty rule list,
where the loop variable would be unbound. -/
def enginePowersForLoop (ctx : Dict) : List MatchConfig → Option MatchConfig
  | [] => none
  | [c] => some c
  | c :: c2 :: rest =>
    if c.matches ctx then some c else enginePowersForLoop ctx (c2 :: rest)

/-- EmissionConfigs._engine_powers_for(vessel_info, engine_group, mode):
match_config.data[mode] of the config selected by the loop (none models the
KeyError for a missing mode or the unbound loop variable). -/
def EmissionConfigs.enginePowersFor (cfg : EmissionConfigs) (vi : VesselInfo)
    (engineGroup : String) (mode : String) : Option Value :=
  (enginePowersForLoop (matchContext vi engineGroup) cfg.enginePowers).bind
    (fun c => dget c.data mode)

/-- Lookup in a resolved factor map. -/
def flookup (factors : List (String × ℚ)) (p : String) : Option ℚ :=
  (factors.find? (fun f => f.1 == p)).map (fun f => f.2)

/-- The per-pollutant emission factor as the specification words it: take
the FIRST pollutant rule in list order whose criteria match the engine
group together with all VesselInfo attributes, then the FIRST matching
base-value rule for that rule's base_value_name, and combine them as
offset_g_per_kwh (default 0) plus g_per_kwh times multiplier (default 1);
no factor at all when either lookup fails. -/
def specPollutantFactor (baseValues : List (String × List MatchConfig))
    (rules : List MatchConfig) (ctx : Dict) : Option ℚ := do
  let pc ← rules.find? (fun c => c.matches ctx)
  let bname ← match dget pc.data "base_value_name" with
    | some (.str s) => some s
    | _ => none
  let brules ← (baseValues.find? (fun bv => bv.1 == bname)).map (fun bv => bv.2)
  let bc ← brules.find? (fun c => c.matches ctx)
  let g ← getNumStrict bc.data "g_per_kwh"
  let off ← getNumD pc.data "offset_g_per_kwh" 0
  let mult ← getNumD pc.data "multiplier" 1
  pure (off + g * mult)

theorem flookup_cons_self (p : String) (q : ℚ) (t : List (String × ℚ)) :
    flookup ((p, q) :: t) p = some q := by
  simp [flookup, List.find?_cons]

theorem flookup_cons_ne {p p' : String} (h : p' ≠ p) (q : ℚ) (t : List (String × ℚ)) :
    flookup ((p, q) :: t) p' = flookup t p' := by
  have hb : (p == p') = false := beq_eq_false_iff_ne.mpr (Ne.symm h)
  simp [flookup, List.find?_cons, hb]

theorem isNumV_some {o : Option Value} (h : isNumV o = true) :
    ∃ q : ℚ, o = some (.num q) := by
  match o with
  | none => simp [isNumV] at h
  | some .null => simp [isNumV] at h
  | some (.str _) => simp [isNumV] at h
  | some (.num q) => exact ⟨q, rfl⟩

theorem getNumD_some_of_valid {d : Dict} {k : String} (dflt : ℚ)
    (h : isNumOrAbsentV (dget d k) = true) : ∃ q : ℚ, getNumD d k dflt = some q := by
  unfold getNumD
  match ho : dget d k with
  | none => exact ⟨dflt, rfl⟩
  | some .null => rw [ho] at h; simp [isNumOrAbsentV] at h
  | some (.str _) => rw [ho] at h; simp [isNumOrAbsentV] at h
  | some (.num q) => exact ⟨q, rfl⟩

theorem getNumStrict_some_of_valid {d : Dict} {k : String}
    (h : isNumV (dget d k) = true) : ∃ q : ℚ, getNumStrict d k = some q := by
  obtain ⟨q, hq⟩ := isNumV_some h
  exact ⟨q, by simp [getNumStrict, hq]⟩

/-- Validity of a single pollutant rule, as checked per config by
EmissionConfigs._assert_valid_config. -/
def validPollutantRule (baseValues : List (String × List MatchConfig))
    (c : MatchConfig) : Bool :=
  (match dget c.data "base_value_name" with
   | some (.str s) => baseValues.any (fun bv => bv.1 == s)
   | _ => false)
  && isNumOrAbsentV (dget c.data "multiplier")
  && isNumOrAbsentV (dget c.data "offset_g_per_kwh")

theorem pollutantFactor_spec
    (baseValues : List (String × List MatchConfig)) (rules : List MatchConfig) (ctx : Dict)
    (hbv : baseValues.all (fun bv => bv.2.all
      (fun c => isNumV (dget c.data "g_per_kwh"))) = true)
    (hrules : rules.all (validPollutantRule baseValues) = true) :
    pollutantFactor baseValues rules ctx
      = some (specPollutantFactor baseValues rules ctx) := by
  unfold pollutantFactor specPollutantFactor firstMatchingData
  cases hfind : rules.find? (fun c => c.matches ctx) with
  | none => simp
  | some pc =>
    have hpc := List.mem_of_find?_eq_some hfind
    have hc := (List.all_eq_true.mp hrules) pc hpc
    unfold validPollutantRule at hc
    rw [Bool.and_eq_true, Bool.and_eq_true] at hc
    obtain ⟨⟨hbn, hmult⟩, hoff⟩ := hc
    match hbnv : dget pc.data "base_value_name" with
    | none => rw [hbnv] at hbn; simp at hbn
    | some .null => rw [hbnv] at hbn; simp at hbn
    | some (.num _) => rw [hbnv] at hbn; simp at hbn
    | some (.str s) =>
      rw [hbnv] at hbn
      simp only [] at hbn
      obtain ⟨bv0, hbv0mem, hbv0s⟩ := List.any_eq_true.mp hbn
      obtain ⟨bvp, hbvp⟩ : ∃ bvp, baseValues.find? (fun bv => bv.1 == s) = some bvp := by
        apply Option.isSome_iff_exists.mp
        rw [List.find?_isSome]
        exact ⟨bv0, hbv0mem, hbv0s⟩
      have hbvpmem := List.mem_of_find?_eq_some hbvp
      have hnums := (List.all_eq_true.mp hbv) bvp hbvpmem
      cases hbfind : bvp.2.find? (fun c => c.matches ctx) with
      | none => simp [hbnv, hbvp, hbfind]
      | some bc =>
        have hbcmem := List.mem_of_find?_eq_some hbfind
        have hg := (List.all_eq_true.mp hnums) bc hbcmem
        obtain ⟨g, hgq⟩ := getNumStrict_some_of_valid hg
        obtain ⟨off, hoffq⟩ := getNumD_some_of_valid 0 hoff
        obtain ⟨mult, hmultq⟩ := getNumD_some_of_valid 1 hmult
        simp [hbnv, hbvp, hbfind, hgq, hoffq, hmultq]

theorem emissionFactorsLoop_spec
    (baseValues : List (String × List MatchConfig)) (ctx : Dict)
    (plist : List (String × List MatchConfig))
    (hbv : baseValues.all (fun bv => bv.2.all
      (fun c => isNumV (dget c.data "g_per_kwh"))) = true)
    (hpl : plist.all (fun pl => pl.2.all (validPollutantRule baseValues)) = true)
    (hnd : (plist.map (fun p => p.1)).Nodup) :
    ∃ factors, emissionFactorsLoop baseValues ctx plist = some factors
      ∧ (∀ p rules, (p, rules) ∈ plist →
          flookup factors p = specPollutantFactor baseValues rules ctx)
      ∧ (∀ p, p ∉ plist.map (fun pl => pl.1) → flookup factors p = none) := by
  induction plist with
  | nil =>
    exact ⟨[], rfl, fun p rules h => by simp at h, fun p h => rfl⟩
  | cons hd rest ih =>
    obtain ⟨p, rules⟩ := hd
    rw [List.all_cons, Bool.and_eq_true] at hpl
    obtain ⟨hhd, htl⟩ := hpl
    rw [List.map_cons, List.nodup_cons] at hnd
    obtain ⟨hpnotin, hndrest⟩ := hnd
    obtain ⟨tail, htail, htail2, htail3⟩ := ih htl hndrest
    have hpf := pollutantFactor_spec baseValues rules ctx hbv hhd
    cases hspec : specPollutantFactor baseValues rules ctx with
    | none =>
      rw [hspec] at hpf
      refine ⟨tail, ?_, ?_, ?_⟩
      · simp only [emissionFactorsLoop, hpf]
        exact htail
      · rintro p' rules' hmem
        rcases List.mem_cons.mp hmem with heq | hmem'
        · cases heq
          rw [hspec, htail3 p hpnotin]
        · exact htail2 p' rules' hmem'
      · intro p' hnot
        simp only [List.map_cons, List.mem_cons] at hnot
        push_neg at hnot
        exact htail3 p' (by simpa using hnot.2)
    | some q =>
      rw [hspec] at hpf
      refine ⟨(p, q) :: tail, ?_, ?_, ?_⟩
      · simp only [emissionFactorsLoop, hpf, htail]
        rfl
      · rintro p' rules' hmem
        rcases List.mem_cons.mp hmem with heq | hmem'
        · cases heq
          rw [hspec, flookup_cons_self]
        · have hne : p' ≠ p := by
            intro hc
            apply hpnotin
            rw [← hc]
            exact List.mem_map.mpr ⟨(p', rules'), hmem', rfl⟩
          rw [flookup_cons_ne hne, htail2 p' rules' hmem']
      · intro p' hnot
        simp only [List.map_cons, List.mem_cons] at hnot
        push_neg at hnot
        rw [flookup_cons_ne hnot.1, htail3 p' (by simpa using hnot.2)]

theorem enginePowersForLoop_eq (ctx : Dict) :
    ∀ rules : List MatchConfig,
    enginePowersForLoop ctx rules
      = (rules.find? (fun c => c.matches ctx)).or rules.getLast?
  | [] => rfl
  | [c] => by
    cases hm : c.matches ctx <;>
      simp [enginePowersForLoop, List.find?_cons, hm]
  | c :: c2 :: rest => by
    cases hm : c.matches ctx with
    | true => simp [enginePowersForLoop, List.find?_cons, hm]
    | false =>
      have ih := enginePowersForLoop_eq ctx (c2 :: rest)
      simp only [enginePowersForLoop, hm, Bool.false_eq_true, if_false, ih,
        List.find?_cons, List.getLast?_cons_cons]

/-- C2: for every EmissionConfigs that passed construction-time validation,
every VesselInfo and every engine group in propulsion, auxiliary, boiler,
_emission_factors_for raises no error, and for each pollutant the resulting
factor map holds offset_g_per_kwh (default 0) plus g_per_kwh times
multiplier (default 1), taken from the FIRST pollutant rule in list order
whose criteria match the engine group together with all VesselInfo
attributes and the FIRST matching base-value rule for that rule's
base_value_name; the pollutant is absent from the map when either lookup
fails. -/
theorem C2_emission_factors_first_match (cfg : EmissionConfigs) (vi : VesselInfo)
    (engineGroup : String)
    (hvalid : cfg.validConfig = true)
    (hinfo : vi.validInfo = true)
    (hgroup : engineGroup ∈ emissionsEngineGroups)
    (hnodup : (cfg.pollutants.map (fun pl => pl.1)).Nodup) :
    ∃ factors, cfg.emissionFactorsFor vi engineGroup = some factors
      ∧ (∀ p rules, (p, rules) ∈ cfg.pollutants →
          flookup factors p
            = specPollutantFactor cfg.baseValues rules (matchContext vi engineGroup))
      ∧ (∀ p, p ∉ cfg.pollutants.map (fun pl => pl.1) → flookup factors p = none) := by
  have hv := hvalid
  unfold EmissionConfigs.validConfig at hv
  rw [Bool.and_eq_true, Bool.and_eq_true, Bool.and_eq_true, Bool.and_eq_true] at hv
  obtain ⟨⟨⟨⟨hbv, hpl⟩, _⟩, _⟩, _⟩ := hv
  have hpl' : cfg.pollutants.all
      (fun pl => pl.2.all (validPollutantRule cfg.baseValues)) = true := hpl
  exact emissionFactorsLoop_spec cfg.baseValues (matchContext vi engineGroup)
    cfg.pollutants hbv hpl' hnodup

/-- C3: for every validated EmissionConfigs, engine group in auxiliary,
boiler and operating mode, _engine_powers_for returns the numeric power of
the requested mode from the data of the FIRST engine-power rule whose
criteria match engine_group plus all VesselInfo attributes, and when no
rule matches it returns data[mode] of the LAST rule in iteration order
instead of raising an error. -/
theorem C3_engine_powers_first_match_or_last (cfg : EmissionConfigs) (vi : VesselInfo)
    (engineGroup mode : String)
    (hvalid : cfg.validConfig = true)
    (hgroup : engineGroup ∈ enginePowerEngineGroups)
    (hmode : mode ∈ modeValues) :
    ∃ q : ℚ, cfg.enginePowersFor vi engineGroup mode = some (.num q)
      ∧ ((∃ c, cfg.enginePowers.find?
              (fun c => c.matches (matchContext vi engineGroup)) = some c
            ∧ dget c.data mode = some (.num q))
        ∨ (cfg.enginePowers.find?
              (fun c => c.matches (matchContext vi engineGroup)) = none
            ∧ ∃ c, cfg.enginePowers.getLast? = some c
              ∧ dget c.data mode = some (.num q))) := by
  have hv := hvalid
  unfold EmissionConfigs.validConfig at hv
  rw [Bool.and_eq_true, Bool.and_eq_true, Bool.and_eq_true, Bool.and_eq_true] at hv
  obtain ⟨⟨⟨⟨_, _⟩, hep⟩, hmiss⟩, _⟩ := hv
  have hne : cfg.enginePowers ≠ [] := by
    intro hnil
    rw [hnil] at hmiss
    simp [enginePowerMissing] at hmiss
  have hloop := enginePowersForLoop_eq (matchContext vi engineGroup) cfg.enginePowers
  cases hfind : cfg.enginePowers.find?
      (fun c => c.matches (matchContext vi engineGroup)) with
  | some c =>
    have hcmem := List.mem_of_find?_eq_some hfind
    have hnum := (List.all_eq_true.mp ((List.all_eq_true.mp hep) c hcmem)) mode hmode
    obtain ⟨q, hq⟩ := isNumV_some hnum
    refine ⟨q, ?_, Or.inl ⟨c, rfl, hq⟩⟩
    unfold EmissionConfigs.enginePowersFor
    rw [hloop, hfind]
    simpa using hq
  | none =>
    have hlast := List.getLast?_eq_getLast cfg.enginePowers hne
    have hlmem := List.getLast_mem hne
    have hnum := (List.all_eq_true.mp
      ((List.all_eq_true.mp hep) (cfg.enginePowers.getLast hne) hlmem)) mode hmode
    obtain ⟨q, hq⟩ := isNumV_some hnum
    refine ⟨q, ?_, Or.inr ⟨rfl, cfg.enginePowers.getLast hne, hlast, hq⟩⟩
    unfold EmissionConfigs.enginePowersFor
    rw [hloop, hfind, hlast]
    simpa using hq

/-- The per-mode default engine power payload of the witness configuration. -/
def egEnginePowerData : Dict :=
  [("transit", .num 100), ("maneuvering", .num 50), ("hotelling", .num 20),
   ("anchorage", .num 10)]

/-- A small valid EmissionConfigs: one base value, a pollutant with
multiplier and offset, a pollutant whose rule only matches small engine
rpm, and engine-group-keyed default engine powers. -/
def egConfigs : EmissionConfigs :=
  ⟨[("co2_base", [⟨[], [("g_per_kwh", .num 600)]⟩])],
   [("co2", [⟨[], [("base_value_name", .str "co2_base"), ("multiplier", .num 2),
                   ("offset_g_per_kwh", .num 5)]⟩]),
    ("nox", [⟨[("engine_rpm", .range "engine_rpm" 0 1)],
              [("base_value_name", .str "co2_base")]⟩])],
   [⟨[("engine_group", .equals "engine_group" (.str "auxiliary"))], egEnginePowerData⟩,
    ⟨[("engine_group", .equals "engine_group" (.str "boiler"))], egEnginePowerData⟩],
   []⟩

/-- A concrete valid VesselInfo. -/
def egVesselInfo : VesselInfo :=
  ⟨10, 1000, 500, "c3", 2, "misc", 0, "n/a"⟩

/-- Witness for C2 at the concrete configuration and vessel. -/
theorem C2_emission_factors_first_match_witness :
    ∃ factors, egConfigs.emissionFactorsFor egVesselInfo "propulsion" = some factors
      ∧ (∀ p rules, (p, rules) ∈ egConfigs.pollutants →
          flookup factors p
            = specPollutantFactor egConfigs.baseValues rules
                (matchContext egVesselInfo "propulsion"))
      ∧ (∀ p, p ∉ egConfigs.pollutants.map (fun pl => pl.1) →
          flookup factors p = none) :=
  C2_emission_factors_first_match egConfigs egVesselInfo "propulsion"
    (by decide) (by decide) (by decide) (by decide)

/-- Witness for C3 at the concrete configuration and vessel. -/
theorem C3_engine_powers_first_match_or_last_witness :
    ∃ q : ℚ, egConfigs.enginePowersFor egVesselInfo "auxiliary" "transit" = some (.num q)
      ∧ ((∃ c, egConfigs.enginePowers.find?
              (fun c => c.matches (matchContext egVesselInfo "auxiliary")) = some c
            ∧ dget c.data "transit" = some (.num q))
        ∨ (egConfigs.enginePowers.find?
              (fun c => c.matches (matchContext egVesselInfo "auxiliary")) = none
            ∧ ∃ c, egConfigs.enginePowers.getLast? = some c
              ∧ dget c.data "transit" = some (.num q))) :=
  C3_engine_powers_first_match_or_last egConfigs egVesselInfo "auxiliary" "transit"
    (by decide) (by decide) (by decide)

/-- The VesselInfo field names (VesselInfoGuesser._FIELD_NAMES), in
dataclass declaration order. -/
def fieldNames : List String :=
  ["max_speed", "engine_kw", "engine_rpm", "engine_category", "engine_nox_tier",
   "ship_type", "size", "size_unit"]

/-- The vessel_info_default_kwargs of VesselInfoGuesser._assert_valid_config. -/
def vesselInfoDefaultKwargs : Dict :=
  [("max_speed", .num 1), ("engine_kw", .num 1), ("engine_rpm", .num 1),
   ("engine_category", .str "c1"), ("engine_nox_tier", .num 1),
   ("ship_type", .str "misc"), ("size", .num 0), ("size_unit", .str "n/a")]

/-- Whether an optional value is a positive number (the comparisons of
VesselInfo.__post_init__, where a TypeError is turned into a ValueError). -/
def isPosNumV : Option Value → Bool
  | some (.num q) => decide (0 < q)
  | _ => false

/-- Whether VesselInfo(**d) would construct successfully for a complete
kwarg dictionary: only known field names, every field present, and the
field constraints of VesselInfo.__post_init__. -/
def vesselInfoKwargsOk (d : Dict) : Bool :=
  (dkeys d).all (fun k => fieldNames.contains k)
  && fieldNames.all (fun k => dhas d k)
  && isPosNumV (dget d "max_speed") && isPosNumV (dget d "engine_kw")
  && isPosNumV (dget d "engine_rpm")
  && (match dget d "engine_category" with
      | some (.str s) => ["c1", "c2", "c3"].contains s
      | _ => false)
  && (match dget d "engine_nox_tier" with
      | some (.num q) => ([0, 1, 2, 3] : List ℚ).contains q
      | _ => false)
  && (match dget d "size" with
      | some (.num q) => decide (0 ≤ q)
      | _ => false)
  && (match dget d "ship_type", dget d "size_unit" with
      | some (.str st), some (.str su) =>
        (match lookupShipTypeUnits st with
         | some units => units.contains su
         | none => false)
      | _, _ => false)

/-- The VesselInfoGuesser of config.py: ordered guess rules and average
vessel build time rules. -/
structure VesselInfoGuesser where
  guessData : List MatchConfig
  averageVesselBuildTimes : List MatchConfig

/-- The size-unit-matches-ship-type check of
VesselInfoGuesser._assert_valid_config: the data's size_unit must be among
VALID_SHIP_TYPE_SIZE_UNITS.get(ship_type, []). -/
def sizeUnitMatchesShipType (d : Dict) : Bool :=
  match dget d "ship_type", dget d "size_unit" with
  | some (.str st), some (.str su) => ((lookupShipTypeUnits st).getD []).contains su
  | _, _ => false

/-- VesselInfoGuesser._assert_valid_config: every guess rule's data merged
onto safe defaults builds a valid VesselInfo; ship_type, size and size_unit
appear together and consistently; criteria-less rules jointly provide every
field; every ship type has a ship-type-keyed rule supplying a size; build
time rules are numeric and at least one is criteria-less. -/
def VesselInfoGuesser.validConfig (g : VesselInfoGuesser) : Bool :=
  g.guessData.all (fun c =>
    vesselInfoKwargsOk (dunion vesselInfoDefaultKwargs c.data)
    && (if ["ship_type", "size", "size_unit"].any (fun a => dhas c.data a) then
          ["ship_type", "size", "size_unit"].all (fun a => dhas c.data a)
          && sizeUnitMatchesShipType c.data
        else true))
  && fieldNames.all (fun k =>
       g.guessData.any (fun c => c.criteria.isEmpty && dhas c.data k))
  && validShipTypeSizeUnits.all (fun st =>
       g.guessData.any (fun c =>
         !c.criteria.isEmpty && c.criteria.all (fun p => p.1 == "ship_type")
         && c.criteria.all (fun p => p.2.matches [("ship_type", .str st.1)])
         && dhas c.data "size"))
  && g.averageVesselBuildTimes.all (fun c => isNumV (dget c.data "build_time_years"))
  && g.averageVesselBuildTimes.any (fun c => c.criteria.isEmpty)

/-- The dict-shape invariant Python guarantees for rule payloads: distinct
keys in each guess rule's data. -/
def VesselInfoGuesser.wfDictKeys (g : VesselInfoGuesser) : Bool :=
  g.guessData.all (fun c => decide (dkeys c.data).Nodup)

/-- The usable_new_attrs merge of VesselInfoGuesser._attrs_with_extra_data:
the data without size and size_unit, merged under the existing attrs. -/
def mergeUsable (attrs data : Dict) : Dict :=
  dunion (data.filter (fun p => !(p.1 == "size") && !(p.1 == "size_unit"))) attrs

/-- VesselInfoGuesser._attrs_with_extra_data(attrs, data): merge the data
(except size and size_unit) under the existing attrs, then bring in size
and size_unit via setdefault only when the data carries a ship_type equal
to the current one (or none is known yet); none models the KeyError when
the data has a ship_type but no size or size_unit. -/
def attrsWithExtraData (attrs data : Dict) : Option Dict :=
  match dget data "ship_type" with
  | none => some (mergeUsable attrs data)
  | some .null => some (mergeUsable attrs data)
  | some nst =>
    if (match dget (mergeUsable attrs data) "ship_type" with
        | none => true
        | some ev => ev.pyEq .null || ev.pyEq nst) then
      match dget data "size" with
      | none => none
      | some sv =>
        match dget data "size_unit" with
        | none => none
        | some suv =>
          some (dsetdefault (dsetdefault (mergeUsable attrs data) "size" sv)
            "size_unit" suv)
    else some (mergeUsable attrs data)

/-- VesselInfoGuesser._guess_missing_attrs(attrs, **values): fold the guess
rules in order, merging the data of each rule matching values | attrs, and
stop as soon as attrs covers every field name. -/
def guessMissingAttrs (configs : List MatchConfig) (attrs values : Dict) : Option Dict :=
  match configs with
  | [] => some attrs
  | c :: rest =>
    match (if c.matches (dunion values attrs) then attrsWithExtraData attrs c.data
           else some attrs) with
    | none => none
    | some attrs1 =>
      if attrs1.length = fieldNames.length then some attrs1
      else guessMissingAttrs rest attrs1 values

/-- VesselInfoGuesser._find_average_build_time(**values): build_time_years
of the first matching build-time rule; none models the StopIteration when
none matches or the KeyError when the key is missing. -/
def VesselInfoGuesser.findAverageBuildTime (g : VesselInfoGuesser)
    (values : Dict) : Option Value :=
  match g.averageVesselBuildTimes.find? (fun c => c.matches values) with
  | none => none
  | some c => dget c.data "build_time_years"

/-- Whether a dict.get result is None in the Python sense: the key is
absent or holds None. -/
def nullish : Option Value → Bool
  | none => true
  | some .null => true
  | some _ => false

/-- VesselInfoGuesser._maybe_improve_nox_tier_guess(attrs, values): when
the guessed engine_category is c3, keel_laid_year popped from values is
None, and year_of_build is known, delete the guessed engine_nox_tier,
derive keel_laid_year as year_of_build minus the first matching average
build time, and re-run the guessing loop with it; otherwise return attrs
unchanged. none models the KeyErrors, StopIteration and TypeErrors of the
corresponding Python paths. -/
def VesselInfoGuesser.maybeImproveNoxTierGuess (g : VesselInfoGuesser)
    (attrs values : Dict) : Option Dict :=
  match dget attrs "engine_category" with
  | none => none
  | some ec =>
    if ec.pyEq (.str "c3") then
      if ((dget values "keel_laid_year").getD .null) == .null then
        if nullish (dget (derase values "keel_laid_year") "year_of_build") then
          some attrs
        else
          if dhas attrs "engine_nox_tier" then
            match g.findAverageBuildTime
                (dunion (derase values "keel_laid_year")
                  (derase attrs "engine_nox_tier")) with
            | none => none
            | some bt =>
              match dget (derase values "keel_laid_year") "year_of_build", bt with
              | some (.num y), .num b =>
                guessMissingAttrs g.guessData (derase attrs "engine_nox_tier")
                  (dset (derase values "keel_laid_year") "keel_laid_year"
                    (.num (y - b)))
              | _, _ => none
          else none
      else some attrs
    else some attrs

/-- The input check at the top of guess_missing_vessel_info: ship_type
absent or None while size is truthy or size_unit is present and not None. -/
def sizeWithoutShipType (values : Dict) : Bool :=
  nullish (dget values "ship_type")
  && (((dget values "size").getD .null).truthy
      || !(nullish (dget values "size_unit")))

/-- VesselInfoGuesser.guess_missing_vessel_info(**values): fail on size
without ship type, seed attrs with the non-None field values, run the
guessing loop, and refine the NOx tier only when engine_nox_tier was not a
key of the original values. -/
def VesselInfoGuesser.guessMissingVesselInfo (g : VesselInfoGuesser)
    (values : Dict) : Option Dict :=
  if sizeWithoutShipType values then none
  else
    match guessMissingAttrs g.guessData
        (values.filter (fun p => fieldNames.contains p.1 && !(p.2 == .null)))
        values with
    | none => none
    | some attrs1 =>
      if dhas values "engine_nox_tier" then some attrs1
      else g.maybeImproveNoxTierGuess attrs1 values

/-- The trigger condition of the second guessing pass as the specification
words it: the engine_category resolved by pass 1 is C3, keel_laid_year was
not known in the original values (absent or None), and year_of_build was
given (present and not None). -/
def specSecondPassTrigger (attrs values : Dict) : Bool :=
  ((dget attrs "engine_category").getD .null).pyEq (.str "c3")
  && nullish (dget values "keel_laid_year")
  && !(nullish (dget values "year_of_build"))

/-- The second guessing pass as the specification words it: drop the pass-1
engine_nox_tier, take build_time_years from the first average-build-time
rule matching the known values and attributes, and re-run the pass-1
matching loop with keel_laid_year = year_of_build minus build_time_years
added to the matching context (keel_laid_year having been popped from the
values). -/
def specSecondPass (g : VesselInfoGuesser) (attrs values : Dict) : Option Dict :=
  if dhas attrs "engine_nox_tier" then
    match g.findAverageBuildTime
        (dunion (derase values "keel_laid_year")
          (derase attrs "engine_nox_tier")) with
    | none => none
    | some bt =>
      match dget (derase values "keel_laid_year") "year_of_build", bt with
      | some (.num y), .num b =>
        guessMissingAttrs g.guessData (derase attrs "engine_nox_tier")
          (dset (derase values "keel_laid_year") "keel_laid_year" (.num (y - b)))
      | _, _ => none
  else none

/-- The guesser of the NOx-tier test scenario: a tier rule keyed on
keel_laid_year 2002, a criteria-less fallback supplying every field with
tier 3, and average build times of 2 years for bulk carriers, 3 years for
container ships and 4 years otherwise. -/
def noxGuesserEx : VesselInfoGuesser :=
  ⟨[⟨[("keel_laid_year", .equals "keel_laid_year" (.num 2002))],
     [("engine_nox_tier", .num 2)]⟩,
    ⟨[], [("max_speed", .num 10), ("engine_kw", .num 1000), ("engine_rpm", .num 100),
          ("engine_category", .str "c1"), ("engine_nox_tier", .num 3),
          ("ship_type", .str "barge"), ("size", .num 0), ("size_unit", .str "n/a")]⟩],
   [⟨[("ship_type", .equals "ship_type" (.str "bulk_carrier"))],
     [("build_time_years", .num 2)]⟩,
    ⟨[("ship_type", .equals "ship_type" (.str "container_ship"))],
     [("build_time_years", .num 3)]⟩,
    ⟨[], [("build_time_years", .num 4)]⟩]⟩

/-- The input of the NOx-tier test scenario: engine category C3, a known
ship type, keel_laid_year supplied as None and year_of_build 2005. -/
def noxValuesEx : Dict :=
  [("engine_category", .str "c3"), ("ship_type", .str "container_ship"),
   ("keel_laid_year", .null), ("year_of_build", .num 2005)]

/-- C4: MatchConfig.matches(values) is true iff every one of its criteria
matches values, so a criteria-less MatchConfig matches every value bag
including the empty one, while DisjunctionCriterion.matches with zero
sub-criteria returns false for every value bag (vacuous OR is false while
vacuous AND is true). -/
theorem C4_vacuous_and_true_vacuous_or_false :
    (∀ (mc : MatchConfig) (values : Dict),
      mc.matches values = mc.criteria.all (fun p => p.2.matches values))
    ∧ (∀ (data : Dict) (values : Dict),
      (MatchConfig.mk [] data).matches values = true)
    ∧ (MatchConfig.mk [] []).matches [] = true
    ∧ (∀ (n : String) (values : Dict),
      (Criterion.disjunction n []).matches values = false) := by
  exact ⟨fun mc values => rfl, fun data values => rfl, rfl, fun n values => rfl⟩

theorem dget_derase_ne (d : Dict) {k k' : String} (h : k ≠ k') :
    dget (derase d k') k = dget d k := by
  unfold derase
  induction d with
  | nil => rfl
  | cons p d ih =>
    by_cases hp : (p.1 == k') = true
    · have hp1 : p.1 = k' := by simpa using hp
      have hpk : (p.1 == k) = false := by
        rw [hp1]
        exact beq_eq_false_iff_ne.mpr (fun hc => h hc.symm)
      have e1 : (p :: d).filter (fun q => !(q.1 == k'))
          = d.filter (fun q => !(q.1 == k')) := by
        simp [List.filter_cons, hp]
      have e2 : dget (p :: d) k = dget d k := by
        simp [dget, List.find?_cons, hpk]
      rw [e1, e2, ih]
    · have hp' : (p.1 == k') = false := by simpa using hp
      have e1 : (p :: d).filter (fun q => !(q.1 == k'))
          = p :: d.filter (fun q => !(q.1 == k')) := by
        simp [List.filter_cons, hp']
      rw [e1]
      by_cases hpk : (p.1 == k) = true
      · simp [dget, List.find?_cons, hpk]
      · have hpk' : (p.1 == k) = false := by simpa using hpk
        have e2 : dget (p :: d.filter (fun q => !(q.1 == k'))) k
            = dget (d.filter (fun q => !(q.1 == k'))) k := by
          simp [dget, List.find?_cons, hpk']
        have e3 : dget (p :: d) k = dget d k := by
          simp [dget, List.find?_cons, hpk']
        rw [e2, e3, ih]

theorem getD_null_beq_null (o : Option Value) :
    ((o.getD .null) == .null) = nullish o := by
  cases o with
  | none => rfl
  | some v => cases v <;> rfl

unseal Rat.sub in
/-- C1: the second NOx-tier guessing pass runs exactly when engine_nox_tier
was not a key of the original values, the engine_category resolved by pass
1 is C3, keel_laid_year was not known in the input, and year_of_build was
given; it then deletes the pass-1 engine_nox_tier, takes build_time_years
from the first average-build-time rule matching the known values and
attributes, and re-runs the pass-1 matching loop with keel_laid_year =
year_of_build minus build_time_years added to the context; in the scenario
with engine_category C3, year_of_build 2005 and matching build time 3
years, the tier rule keyed on keel_laid_year 2002 is selected. -/
theorem C1_nox_second_pass :
    (∀ (g : VesselInfoGuesser) (attrs values : Dict),
        dhas attrs "engine_category" = true →
        specSecondPassTrigger attrs values = false →
        g.maybeImproveNoxTierGuess attrs values = some attrs)
    ∧ (∀ (g : VesselInfoGuesser) (attrs values : Dict),
        specSecondPassTrigger attrs values = true →
        g.maybeImproveNoxTierGuess attrs values = specSecondPass g attrs values)
    ∧ (∀ (g : VesselInfoGuesser) (values : Dict),
        dhas values "engine_nox_tier" = true →
        g.guessMissingVesselInfo values
          = (if sizeWithoutShipType values then none
             else guessMissingAttrs g.guessData
               (values.filter (fun p => fieldNames.contains p.1 && !(p.2 == .null)))
               values))
    ∧ (noxGuesserEx.guessMissingVesselInfo noxValuesEx).bind
        (fun attrs => dget attrs "engine_nox_tier") = some (.num 2) := by
  refine ⟨?_, ?_, ?_, by decide⟩
  · intro g attrs values hcat htrig
    obtain ⟨ec, hec⟩ := Option.isSome_iff_exists.mp (dget_isSome_of_dhas hcat)
    unfold VesselInfoGuesser.maybeImproveNoxTierGuess
    unfold specSecondPassTrigger at htrig
    rw [hec] at htrig
    simp only [hec]
    simp only [Option.getD_some] at htrig
    by_cases hc3 : ec.pyEq (.str "c3") = true
    · rw [if_pos hc3]
      rw [hc3, Bool.true_and] at htrig
      rw [getD_null_beq_null]
      by_cases hkeel : nullish (dget values "keel_laid_year") = true
      · rw [if_pos hkeel]
        rw [hkeel, Bool.true_and] at htrig
        have hyob : nullish (dget values "year_of_build") = true := by
          simpa using htrig
        have hyob1 : nullish
            (dget (derase values "keel_laid_year") "year_of_build") = true := by
          rw [dget_derase_ne values (by decide)]
          exact hyob
        rw [if_pos hyob1]
      · have hk' : nullish (dget values "keel_laid_year") = false := by
          simpa using hkeel
        rw [hk']
        simp
    · rw [if_neg hc3]
  · intro g attrs values htrig
    unfold specSecondPassTrigger at htrig
    cases hec : dget attrs "engine_category" with
    | none =>
      rw [hec] at htrig
      simp [Value.pyEq] at htrig
    | some ec =>
      rw [hec] at htrig
      simp only [Option.getD_some, Bool.and_eq_true, Bool.not_eq_true] at htrig
      obtain ⟨⟨hc3, hkeel⟩, hyob⟩ := htrig
      unfold VesselInfoGuesser.maybeImproveNoxTierGuess
      simp only [hec]
      rw [if_pos hc3, getD_null_beq_null, if_pos hkeel]
      have hyob1 : nullish
          (dget (derase values "keel_laid_year") "year_of_build") = false := by
        rw [dget_derase_ne values (by decide)]
        simpa using hyob
      rw [hyob1]
      rfl
  · intro g values htier
    unfold VesselInfoGuesser.guessMissingVesselInfo
    by_cases herr : sizeWithoutShipType values = true
    · rw [if_pos herr, if_pos herr]
    · rw [if_neg herr, if_neg herr]
      cases hgma : guessMissingAttrs g.guessData
          (values.filter (fun p => fieldNames.contains p.1 && !(p.2 == .null)))
          values with
      | none => rfl
      | some a1 => simp [htier]

/-- Witness for C1 applying the trigger characterization at a concrete
guesser, attribute bag and value bag. -/
theorem C1_nox_second_pass_witness :
    noxGuesserEx.maybeImproveNoxTierGuess
      [("engine_category", Value.str "c1"), ("engine_nox_tier", Value.num 3)] []
      = some [("engine_category", Value.str "c1"), ("engine_nox_tier", Value.num 3)] :=
  C1_nox_second_pass.1 noxGuesserEx
    [("engine_category", Value.str "c1"), ("engine_nox_tier", Value.num 3)] []
    (by decide) (by decide)

/-- C6 counterexample: with ship_type absent, a size that is present but 0
does not trigger the input error (values.get("size") is falsy), so the
guess succeeds where the claim demands a ValueError. -/
theorem C6_counterexample_size_zero :
    ¬ (noxGuesserEx.guessMissingVesselInfo [("size", Value.num 0)] = none) := by
  decide

/-- C6 (amended): when ship_type is absent or None in values while size is
present with a truthy value (non-None and non-zero) or size_unit is present
and not None, guess_missing_vessel_info raises ValueError and produces no
guess. -/
theorem C6_size_without_ship_type_error (g : VesselInfoGuesser) (values : Dict)
    (h : sizeWithoutShipType values = true) :
    g.guessMissingVesselInfo values = none := by
  unfold VesselInfoGuesser.guessMissingVesselInfo
  rw [if_pos h]

/-- Witness for C6 at a concrete guesser and a value bag holding only a
nonzero size. -/
theorem C6_size_without_ship_type_error_witness :
    sizeWithoutShipType [("size", Value.num 1)] = true
    ∧ noxGuesserEx.guessMissingVesselInfo [("size", Value.num 1)] = none :=
  ⟨by decide, C6_size_without_ship_type_error noxGuesserEx
    [("size", Value.num 1)] (by decide)⟩

theorem dkeys_filter_subset (g : String → Bool) (d : Dict) :
    ∀ k ∈ dkeys (d.filter (fun p => g p.1)), k ∈ dkeys d := by
  intro k hk
  simp only [dkeys, List.mem_map] at hk ⊢
  obtain ⟨p, hp, hpk⟩ := hk
  exact ⟨p, List.mem_of_mem_filter hp, hpk⟩

theorem dkeys_filter_nodup (g : String → Bool) {d : Dict}
    (h : (dkeys d).Nodup) :
    (dkeys (d.filter (fun p => g p.1))).Nodup := by
  have he := map_fst_filter_key g d
  unfold dkeys at *
  rw [he]
  exact h.filter g

theorem mergeUsable_complete {attrs data : Dict}
    (hand : (dkeys attrs).Nodup) (hperm : (dkeys attrs).Perm fieldNames)
    (hdn : (dkeys data).Nodup)
    (hsub : ∀ k ∈ dkeys data, k ∈ fieldNames) :
    (∀ k, dget (mergeUsable attrs data) k = dget attrs k)
      ∧ (dkeys (mergeUsable attrs data)).Nodup
      ∧ (dkeys (mergeUsable attrs data)).Perm fieldNames := by
  have husubkeys : ∀ k ∈ dkeys (data.filter
      (fun p => !(p.1 == "size") && !(p.1 == "size_unit"))), k ∈ dkeys attrs := by
    intro k hk
    have hkd := dkeys_filter_subset
      (fun k => !(k == "size") && !(k == "size_unit")) data k hk
    exact hperm.mem_iff.mpr (hsub k hkd)
  have hunodup : (dkeys (data.filter
      (fun p => !(p.1 == "size") && !(p.1 == "size_unit")))).Nodup :=
    dkeys_filter_nodup (fun k => !(k == "size") && !(k == "size_unit")) hdn
  refine ⟨?_, dkeys_dunion_nodup hunodup hand,
    (dkeys_dunion_perm hunodup hand husubkeys).trans hperm⟩
  intro k
  unfold mergeUsable
  rw [dget_dunion]
  by_cases hk : dhas attrs k = true
  · rw [if_pos hk]
  · rw [if_neg hk]
    have hk2 : dhas attrs k = false := by simpa using hk
    have hu : dhas (data.filter
        (fun p => !(p.1 == "size") && !(p.1 == "size_unit"))) k = false := by
      by_contra hc
      have hc2 : dhas (data.filter
          (fun p => !(p.1 == "size") && !(p.1 == "size_unit"))) k = true := by
        simpa using hc
      have hmem := husubkeys k ((dhas_iff_mem _ _).mp hc2)
      rw [(dhas_iff_mem attrs k).mpr hmem] at hk2
      simp at hk2
    rw [dget_eq_none_of_not_dhas hu, dget_eq_none_of_not_dhas hk2]

theorem attrsWithExtraData_complete {attrs data : Dict}
    (hand : (dkeys attrs).Nodup) (hperm : (dkeys attrs).Perm fieldNames)
    (hdn : (dkeys data).Nodup)
    (hsub : ∀ k ∈ dkeys data, k ∈ fieldNames)
    (htriple : dhas data "ship_type" = true →
      dhas data "size" = true ∧ dhas data "size_unit" = true) :
    attrsWithExtraData attrs data = some (mergeUsable attrs data)
      ∧ (∀ k, dget (mergeUsable attrs data) k = dget attrs k)
      ∧ (dkeys (mergeUsable attrs data)).Nodup
      ∧ (dkeys (mergeUsable attrs data)).Perm fieldNames := by
  obtain ⟨hget1, hnodup1, hperm1⟩ := mergeUsable_complete hand hperm hdn hsub
  refine ⟨?_, hget1, hnodup1, hperm1⟩
  unfold attrsWithExtraData
  cases hst : dget data "ship_type" with
  | none => rfl
  | some v =>
    have hhasst : dhas data "ship_type" = true := by
      rw [dhas_eq_isSome, hst]
      rfl
    obtain ⟨hs, hsu⟩ := htriple hhasst
    obtain ⟨sv, hsv⟩ := Option.isSome_iff_exists.mp (dget_isSome_of_dhas hs)
    obtain ⟨suv, hsuv⟩ := Option.isSome_iff_exists.mp (dget_isSome_of_dhas hsu)
    have hsize1 : dhas (mergeUsable attrs data) "size" = true := by
      rw [dhas_iff_mem]
      exact hperm1.mem_iff.mpr (by decide)
    have hsu1 : dhas (mergeUsable attrs data) "size_unit" = true := by
      rw [dhas_iff_mem]
      exact hperm1.mem_iff.mpr (by decide)
    have hsd : dsetdefault (dsetdefault (mergeUsable attrs data) "size" sv)
        "size_unit" suv = mergeUsable attrs data := by
      rw [dsetdefault_of_dhas sv hsize1, dsetdefault_of_dhas suv hsu1]
    cases v with
    | null => rfl
    | num n =>
      simp only [hsv, hsuv, hsd]
      split <;> rfl
    | str st =>
      simp only [hsv, hsuv, hsd]
      split <;> rfl

theorem guessMissingAttrs_complete {configs : List MatchConfig} {attrs values : Dict}
    (hconf : ∀ c ∈ configs, (dkeys c.data).Nodup
      ∧ (∀ k ∈ dkeys c.data, k ∈ fieldNames)
      ∧ (dhas c.data "ship_type" = true →
        dhas c.data "size" = true ∧ dhas c.data "size_unit" = true))
    (hand : (dkeys attrs).Nodup) (hperm : (dkeys attrs).Perm fieldNames) :
    ∃ attrs1, guessMissingAttrs configs attrs values = some attrs1
      ∧ (∀ k, dget attrs1 k = dget attrs k)
      ∧ (dkeys attrs1).Nodup ∧ (dkeys attrs1).Perm fieldNames := by
  cases configs with
  | nil => exact ⟨attrs, rfl, fun k => rfl, hand, hperm⟩
  | cons c rest =>
    obtain ⟨hcn, hcs, hct⟩ := hconf c (List.mem_cons_self c rest)
    unfold guessMissingAttrs
    by_cases hm : c.matches (dunion values attrs) = true
    · obtain ⟨heq, hget, hnd, hp⟩ :=
        attrsWithExtraData_complete hand hperm hcn hcs hct
      have hlen : (mergeUsable attrs c.data).length = fieldNames.length := by
        have h1 : (dkeys (mergeUsable attrs c.data)).length
            = fieldNames.length := hp.length_eq
        simpa [dkeys] using h1
      refine ⟨mergeUsable attrs c.data, ?_, hget, hnd, hp⟩
      rw [if_pos hm, heq]
      simp [hlen]
    · have hlen : attrs.length = fieldNames.length := by
        have h1 : (dkeys attrs).length = fieldNames.length := hperm.length_eq
        simpa [dkeys] using h1
      refine ⟨attrs, ?_, fun k => rfl, hand, hperm⟩
      rw [if_neg hm]
      simp [hlen]

theorem validGuessData_facts {g : VesselInfoGuesser}
    (hv : g.validConfig = true) (hwf : g.wfDictKeys = true) :
    ∀ c ∈ g.guessData, (dkeys c.data).Nodup
      ∧ (∀ k ∈ dkeys c.data, k ∈ fieldNames)
      ∧ (dhas c.data "ship_type" = true →
        dhas c.data "size" = true ∧ dhas c.data "size_unit" = true) := by
  intro c hc
  unfold VesselInfoGuesser.validConfig at hv
  rw [Bool.and_eq_true, Bool.and_eq_true, Bool.and_eq_true, Bool.and_eq_true] at hv
  obtain ⟨⟨⟨⟨hrules, _⟩, _⟩, _⟩, _⟩ := hv
  have hcr := (List.all_eq_true.mp hrules) c hc
  rw [Bool.and_eq_true] at hcr
  obtain ⟨hkw, htrip⟩ := hcr
  unfold vesselInfoKwargsOk at hkw
  rw [Bool.and_eq_true, Bool.and_eq_true, Bool.and_eq_true, Bool.and_eq_true,
    Bool.and_eq_true, Bool.and_eq_true, Bool.and_eq_true, Bool.and_eq_true] at hkw
  have hkeysall := hkw.1.1.1.1.1.1.1.1
  refine ⟨?_, ?_, ?_⟩
  · have hwf2 := (List.all_eq_true.mp hwf) c hc
    exact of_decide_eq_true hwf2
  · intro k hk
    by_cases hkf : k ∈ fieldNames
    · exact hkf
    · exfalso
      have hkm : k ∈ dkeys (dunion vesselInfoDefaultKwargs c.data) := by
        rw [dkeys_dunion]
        refine List.mem_append.mpr (Or.inr ?_)
        rw [List.mem_filter]
        refine ⟨hk, ?_⟩
        have hdefkeys : dkeys vesselInfoDefaultKwargs = fieldNames := by decide
        have : dhas vesselInfoDefaultKwargs k = false := by
          by_contra hcx
          have hcx2 : dhas vesselInfoDefaultKwargs k = true := by simpa using hcx
          exact hkf (hdefkeys ▸ (dhas_iff_mem _ _).mp hcx2)
        simp [this]
      have := (List.all_eq_true.mp hkeysall) k hkm
      rw [List.contains_iff_exists_mem_beq] at this
      obtain ⟨x, hx, hxk⟩ := this
      have : k = x := by simpa using hxk
      exact hkf (this ▸ hx)
  · intro hst
    have hany : (["ship_type", "size", "size_unit"].any
        (fun a => dhas c.data a)) = true := by
      simp only [List.any_eq_true]
      exact ⟨"ship_type", by decide, hst⟩
    rw [if_pos hany, Bool.and_eq_true] at htrip
    have hall := htrip.1
    rw [List.all_eq_true] at hall
    exact ⟨hall "size" (by decide), hall "size_unit" (by decide)⟩

/-- C5: for every validated VesselInfoGuesser and every value bag that
assigns a non-None value to exactly the eight VesselInfo fields,
guess_missing_vessel_info returns exactly those values: no field is added,
removed or changed. -/
theorem C5_guesser_round_trip (g : VesselInfoGuesser) (values : Dict)
    (hv : g.validConfig = true) (hwf : g.wfDictKeys = true)
    (hnd : (dkeys values).Nodup)
    (hperm : (dkeys values).Perm fieldNames)
    (hnn : ∀ p ∈ values, p.2 ≠ Value.null) :
    ∃ attrs, g.guessMissingVesselInfo values = some attrs
      ∧ (∀ k, dget attrs k = dget values k)
      ∧ (dkeys attrs).Perm (dkeys values) := by
  have hstmem : "ship_type" ∈ dkeys values := hperm.mem_iff.mpr (by decide)
  have hsthas : dhas values "ship_type" = true := (dhas_iff_mem _ _).mpr hstmem
  obtain ⟨v, hvst⟩ := Option.isSome_iff_exists.mp (dget_isSome_of_dhas hsthas)
  have hvnn : v ≠ Value.null := by
    intro hcv
    have hmem : ∃ p ∈ values, p.2 = v := by
      unfold dget at hvst
      cases hfind : values.find? (fun p => p.1 == "ship_type") with
      | none => rw [hfind] at hvst; simp at hvst
      | some p =>
        rw [hfind] at hvst
        simp only [Option.map_some', Option.some.injEq] at hvst
        exact ⟨p, List.mem_of_find?_eq_some hfind, hvst⟩
    obtain ⟨p, hp, hpv⟩ := hmem
    exact hnn p hp (hpv.trans hcv)
  have herr : sizeWithoutShipType values = false := by
    unfold sizeWithoutShipType
    rw [hvst]
    cases v with
    | null => exact absurd rfl hvnn
    | num q => rfl
    | str st => rfl
  have hfilter : values.filter
      (fun p => fieldNames.contains p.1 && !(p.2 == .null)) = values := by
    apply List.filter_eq_self.mpr
    intro p hp
    rw [Bool.and_eq_true]
    constructor
    · have hpk : p.1 ∈ fieldNames := hperm.mem_iff.mp (by
        unfold dkeys
        exact List.mem_map.mpr ⟨p, hp, rfl⟩)
      rw [List.contains_iff_exists_mem_beq]
      exact ⟨p.1, hpk, by simp⟩
    · simpa using hnn p hp
  have htier : dhas values "engine_nox_tier" = true :=
    (dhas_iff_mem _ _).mpr (hperm.mem_iff.mpr (by decide))
  obtain ⟨a1, ha1, hget, hnd1, hp1⟩ :=
    guessMissingAttrs_complete (validGuessData_facts hv hwf) hnd hperm
  refine ⟨a1, ?_, hget, hp1.trans hperm.symm⟩
  unfold VesselInfoGuesser.guessMissingVesselInfo
  rw [if_neg (by simp [herr]), hfilter, ha1]
  simp [htier]

/-- The ship-type-keyed guess rules of the witness guesser: one rule per
ship type supplying that type together with a size and its first valid
size unit. -/
def egShipTypeRules : List MatchConfig :=
  validShipTypeSizeUnits.map (fun p =>
    ⟨[("ship_type", .equals "ship_type" (.str p.1))],
     [("ship_type", .str p.1), ("size", .num 0), ("size_unit", .str (p.2.headD ""))]⟩)

/-- A concrete valid VesselInfoGuesser: a criteria-less rule supplying all
fields, the per-ship-type size rules, and a criteria-less build time. -/
def egGuesser : VesselInfoGuesser :=
  ⟨⟨[], vesselInfoDefaultKwargs⟩ :: egShipTypeRules,
   [⟨[], [("build_time_years", .num 1)]⟩]⟩

/-- Witness for C5 at the concrete guesser and a complete attribute bag. -/
theorem C5_guesser_round_trip_witness :
    ∃ attrs, egGuesser.guessMissingVesselInfo egVesselInfo.asDict = some attrs
      ∧ (∀ k, dget attrs k = dget egVesselInfo.asDict k)
      ∧ (dkeys attrs).Perm (dkeys egVesselInfo.asDict) :=
  C5_guesser_round_trip egGuesser egVesselInfo.asDict (by decide) (by decide)
    (by decide) (List.Perm.refl _) (by decide)

/-- EmissionCalculator.propulsion_load_at_stw: the fraction of maximum
speed cubed, scaled by the sea margin adjustment factor and capped at 1. -/
def propulsionLoadAtStw (maxSpeed seaMarginAdjustmentFactor stw : ℚ) : ℚ :=
  min ((stw / maxSpeed) ^ 3 * seaMarginAdjustmentFactor) 1

/-- SegmentDurationSanitizer.adjusted_segment_hours, over the segment's
duration in hours, the sogs at its start and end positions, and its
distance in meters: the duration times an adjustment factor derived from
comparing the distance implied by the average sog with the actual distance
(converted to nautical miles), capped at the maximum increase factor. -/
def adjustedSegmentHours (maxFuelCalcDistanceDeviation
    maxFuelCalcDurationIncreaseFactor segmentHours startSog endSog
    distanceMeters : ℚ) : ℚ :=
  segmentHours *
    min (if segmentHours * ((startSog + endSog) / 2) ≠ 0 then
           if segmentHours * ((startSog + endSog) / 2)
               < distanceMeters / 1852 * (1 - maxFuelCalcDistanceDeviation) then
             distanceMeters / 1852 * (1 - maxFuelCalcDistanceDeviation)
               / (segmentHours * ((startSog + endSog) / 2))
           else if segmentHours * ((startSog + endSog) / 2)
               > distanceMeters / 1852 * (1 + maxFuelCalcDistanceDeviation) then
             distanceMeters / 1852 * (1 + maxFuelCalcDistanceDeviation)
               / (segmentHours * ((startSog + endSog) / 2))
           else 1
         else 1)
      maxFuelCalcDurationIncreaseFactor

/-- The duration adjustment factor as the specification words it: 1 when
the assumed distance is 0 or lies between the deviation bounds, the ratio
that stretches the assumed distance back to the nearer bound otherwise. -/
def specDurationFactor (maxFuelCalcDistanceDeviation assumedDistance
    actualDistance : ℚ) : ℚ :=
  if assumedDistance = 0 then 1
  else if assumedDistance < actualDistance * (1 - maxFuelCalcDistanceDeviation) then
    actualDistance * (1 - maxFuelCalcDistanceDeviation) / assumedDistance
  else if actualDistance * (1 + maxFuelCalcDistanceDeviation) < assumedDistance then
    actualDistance * (1 + maxFuelCalcDistanceDeviation) / assumedDistance
  else 1

/-- The Position of event.py, with its stored numeric attributes (sog kept
even though equality ignores it; stw is derived, not stored). -/
structure Position where
  ts : ℚ
  lon : ℚ
  lat : ℚ
  sog : ℚ
  cog : ℚ
  heading : ℚ
  tideFlow : ℚ
  tideBearing : ℚ
deriving DecidableEq, Repr

/-- The raw arguments of one append_position call. -/
structure PositionArgs where
  ts : ℚ
  lon : ℚ
  lat : ℚ
  sog : ℚ
  cog : ℚ
  heading : ℚ
  tideFlow : ℚ
  tideBearing : ℚ
deriving DecidableEq, Repr

/-- The range checks of the Longitude, Latitude, Speed and Bearing
constructors run by Position.__init__. -/
def positionArgsValid (a : PositionArgs) : Bool :=
  decide (-180 ≤ a.lon) && decide (a.lon < 180)
  && decide (-90 ≤ a.lat) && decide (a.lat ≤ 90)
  && decide (0 ≤ a.sog)
  && decide (0 ≤ a.cog) && decide (a.cog < 360)
  && decide (0 ≤ a.heading) && decide (a.heading < 360)
  && decide (0 ≤ a.tideFlow)
  && decide (0 ≤ a.tideBearing) && decide (a.tideBearing < 360)

/-- Position construction; none models the ValueError of an invalid
coordinate, speed or bearing. -/
def mkPosition (a : PositionArgs) : Option Position :=
  if positionArgsValid a then
    some ⟨a.ts, a.lon, a.lat, a.sog, a.cog, a.heading, a.tideFlow, a.tideBearing⟩
  else none

/-- The Segment of event.py: its start and end positions (stop standing
for the attribute named end, a reserved word here). -/
structure Segment where
  start : Position
  stop : Position
deriving DecidableEq, Repr

/-- The Track of event.py: its positions and the segments linking them. -/
structure Track where
  positions : List Position
  segments : List Segment
deriving DecidableEq, Repr

/-- Track.append_position: construct the position (a failure leaves the
track unchanged), append it, then append the segment linking the previous
position to it; when the previous position's timestamp is later, the
Segment constructor raises after the position was already appended, which
the error branch records as the resulting broken state. -/
def Track.appendPosition (t : Track) (a : PositionArgs) : Except Track Track :=
  match mkPosition a with
  | none => .error t
  | some pos =>
    match t.positions.getLast? with
    | none => .ok ⟨t.positions ++ [pos], t.segments⟩
    | some prev =>
      if decide (prev.ts ≤ pos.ts) then
        .ok ⟨t.positions ++ [pos], t.segments ++ [⟨prev, pos⟩]⟩
      else .error ⟨t.positions ++ [pos], t.segments⟩

/-- The state of the track after an append_position call, whether or not
it raised. -/
def stateAfter (t : Track) (a : PositionArgs) : Track :=
  match t.appendPosition a with
  | .ok t2 => t2
  | .error t2 => t2

/-- A sequence of append_position calls all of which succeed; none when
any call raises. -/
def appendAllOk : Track → List PositionArgs → Option Track
  | t, [] => some t
  | t, a :: rest =>
    match t.appendPosition a with
    | .ok t2 => appendAllOk t2 rest
    | .error _ => none

/-- A freshly constructed empty Track. -/
def emptyTrack : Track := ⟨[], []⟩

/-- The Track invariant of the claim: one segment fewer than positions,
each segment connecting consecutive positions. -/
def Track.invariantHolds (t : Track) : Prop :=
  t.segments.length = t.positions.length - 1
  ∧ ∀ (i : ℕ) (s : Segment), t.segments[i]? = some s →
      t.positions[i]? = some s.start ∧ t.positions[i + 1]? = some s.stop

/-- Position.__eq__ via _attr_eq over Position._attributes: comparison of
ts, lon, lat, cog, heading, tide_flow and tide_bearing only. -/
def Position.attrEq (p other : Position) : Bool :=
  p.ts == other.ts && p.lon == other.lon && p.lat == other.lat
  && p.cog == other.cog && p.heading == other.heading
  && p.tideFlow == other.tideFlow && p.tideBearing == other.tideBearing

/-- Arguments of a first append at timestamp 1. -/
def caArgs1 : PositionArgs := ⟨1, 0, 0, 0, 0, 0, 0, 0⟩

/-- Arguments of a second append at the earlier timestamp 0. -/
def caArgs2 : PositionArgs := ⟨0, 0, 0, 0, 0, 0, 0, 0⟩

/-- Arguments of a second append at the later timestamp 2. -/
def caArgs3 : PositionArgs := ⟨2, 0, 0, 0, 0, 0, 0, 0⟩

/-- The position built from caArgs1. -/
def caPos1 : Position := ⟨1, 0, 0, 0, 0, 0, 0, 0⟩

/-- The position built from caArgs3. -/
def caPos3 : Position := ⟨2, 0, 0, 0, 0, 0, 0, 0⟩

/-- C7 counterexample: with sea_margin_adjustment_factor 1/2 and max_speed
10, the load at stw = max_speed is 1/2, not 1, refuting the claim that
propulsion_load_at_stw(max_speed) is always exactly 1. -/
theorem C7_counterexample_small_margin :
    propulsionLoadAtStw 10 (1 / 2) 10 ≠ 1 := by
  unfold propulsionLoadAtStw
  rw [min_def]
  norm_num

/-- C7 (amended): for every vessel with max_speed > 0 and every
non-negative stw, propulsion_load_at_stw(stw) equals
min((stw/max_speed)^3 * sea_margin_adjustment_factor, 1); in particular
the load at stw 0 is 0, and the load at stw = max_speed is exactly 1
provided the sea margin adjustment factor is at least 1. -/
theorem C7_propeller_law (maxSpeed seaMarginAdjustmentFactor stw : ℚ)
    (hms : 0 < maxSpeed) (hstw : 0 ≤ stw) :
    propulsionLoadAtStw maxSpeed seaMarginAdjustmentFactor stw
      = min ((stw / maxSpeed) ^ 3 * seaMarginAdjustmentFactor) 1
    ∧ propulsionLoadAtStw maxSpeed seaMarginAdjustmentFactor 0 = 0
    ∧ (1 ≤ seaMarginAdjustmentFactor →
        propulsionLoadAtStw maxSpeed seaMarginAdjustmentFactor maxSpeed = 1) := by
  refine ⟨rfl, ?_, ?_⟩
  · unfold propulsionLoadAtStw
    rw [zero_div, zero_pow (by norm_num), zero_mul]
    exact min_eq_left (by norm_num)
  · intro hmargin
    unfold propulsionLoadAtStw
    rw [div_self (ne_of_gt hms), one_pow, one_mul]
    exact min_eq_right hmargin

/-- Witness for C7 at max_speed 10, sea margin 2, stw 10. -/
theorem C7_propeller_law_witness :
    propulsionLoadAtStw 10 2 10 = 1 :=
  (C7_propeller_law 10 2 10 (by norm_num) (by norm_num)).2.2 (by norm_num)

/-- C8: adjusted_segment_hours is the segment duration times the factor
the specification describes (1 when the assumed distance is 0 or within
the deviation bounds, the bound over the assumed distance otherwise),
capped at max_fuel_calc_duration_increase_factor; a 2-hour segment of 13
nautical miles with average sog 8 knots and deviation 0.2 yields 1.95
hours; zero average sog leaves the duration unchanged (for any increase
cap of at least 1). -/
theorem C8_adjusted_segment_hours :
    (∀ dev maxInc h s e d : ℚ,
      adjustedSegmentHours dev maxInc h s e d
        = h * min (specDurationFactor dev (h * ((s + e) / 2)) (d / 1852)) maxInc)
    ∧ (∀ dev maxInc h s e d : ℚ, 1 ≤ maxInc → s + e = 0 →
      adjustedSegmentHours dev maxInc h s e d = h)
    ∧ adjustedSegmentHours (1 / 5) 10 2 8 8 (13 * 1852) = 39 / 20 := by
  have hmain : ∀ dev maxInc h s e d : ℚ,
      adjustedSegmentHours dev maxInc h s e d
        = h * min (specDurationFactor dev (h * ((s + e) / 2)) (d / 1852)) maxInc := by
    intro dev maxInc h s e d
    unfold adjustedSegmentHours specDurationFactor
    by_cases hz : h * ((s + e) / 2) = 0
    · rw [if_neg (not_not_intro hz), if_pos hz]
    · rw [if_pos hz, if_neg hz]
  refine ⟨hmain, ?_, ?_⟩
  · intro dev maxInc h s e d hcap hse
    rw [hmain]
    have hz : h * ((s + e) / 2) = 0 := by
      rw [hse]
      ring
    unfold specDurationFactor
    rw [if_pos hz, min_eq_left hcap, mul_one]
  · rw [hmain]
    have hassumed : (2 : ℚ) * ((8 + 8) / 2) = 16 := by norm_num
    have hactual : (13 : ℚ) * 1852 / 1852 = 13 := by norm_num
    unfold specDurationFactor
    rw [hassumed, hactual]
    rw [if_neg (by norm_num), if_neg (by norm_num), if_pos (by norm_num)]
    rw [min_eq_left (by norm_num)]
    norm_num

/-- Witness for C8 applying the zero-average-sog conjunct at concrete
inputs. -/
theorem C8_adjusted_segment_hours_witness :
    adjustedSegmentHours (1 / 4) 10 5 0 0 999 = 5 :=
  C8_adjusted_segment_hours.2.1 (1 / 4) 10 5 0 0 999 (by norm_num) (by norm_num)

theorem appendPosition_ok_invariant {t t2 : Track} {a : PositionArgs}
    (hinv : t.invariantHolds) (h : t.appendPosition a = .ok t2) :
    t2.invariantHolds := by
  unfold Track.appendPosition at h
  cases hmk : mkPosition a with
  | none =>
    rw [hmk] at h
    simp at h
  | some pos =>
    rw [hmk] at h
    simp only [] at h
    cases hlast : t.positions.getLast? with
    | none =>
      rw [hlast] at h
      simp only [Except.ok.injEq] at h
      subst h
      have hpos : t.positions = [] := by
        cases hp : t.positions with
        | nil => rfl
        | cons x xs =>
          rw [hp] at hlast
          rw [List.getLast?_eq_getLast (x :: xs) (by simp)] at hlast
          simp at hlast
      have hsegs : t.segments = [] := by
        have h1 := hinv.1
        rw [hpos] at h1
        simpa using List.length_eq_zero.mp h1
      constructor
      · simp [hpos, hsegs]
      · intro i seg hseg
        rw [hsegs] at hseg
        simp at hseg
    | some prev =>
      rw [hlast] at h
      simp only [] at h
      by_cases hts : prev.ts ≤ pos.ts
      · rw [if_pos (by simpa using hts)] at h
        simp only [Except.ok.injEq] at h
        subst h
        have hne : t.positions ≠ [] := by
          intro hc
          rw [hc] at hlast
          simp at hlast
        have hlen : 0 < t.positions.length := List.length_pos.mpr hne
        have hseglen : t.segments.length = t.positions.length - 1 := hinv.1
        constructor
        · simp only [List.length_append, List.length_cons, List.length_nil]
          omega
        · intro i seg hseg
          by_cases hi : i < t.segments.length
          · have hseg2 : t.segments[i]? = some seg := by
              rw [List.getElem?_append_left hi] at hseg
              exact hseg
            obtain ⟨hs1, hs2⟩ := hinv.2 i seg hseg2
            have hi1 : i < t.positions.length := by omega
            have hi2 : i + 1 < t.positions.length := by omega
            constructor
            · rw [List.getElem?_append_left hi1]
              exact hs1
            · rw [List.getElem?_append_left hi2]
              exact hs2
          · have hilen : i < t.segments.length + 1 := by
              by_contra hc
              have hge : t.segments.length + 1 ≤ i := by omega
              have : (t.segments ++ [Segment.mk prev pos])[i]? = none := by
                apply List.getElem?_eq_none
                simp only [List.length_append, List.length_cons, List.length_nil]
                omega
              rw [this] at hseg
              exact absurd hseg (by simp)
            have hieq : i = t.segments.length := by omega
            subst hieq
            have hseg2 : seg = Segment.mk prev pos := by
              rw [List.getElem?_concat_length] at hseg
              simpa using hseg.symm
            subst hseg2
            have hprev : t.positions[t.positions.length - 1]? = some prev := by
              rw [← List.getLast?_eq_getElem?]
              exact hlast
            constructor
            · rw [List.getElem?_append_left (by omega)]
              rw [hseglen]
              exact hprev
            · rw [hseglen]
              have he : t.positions.length - 1 + 1 = t.positions.length := by omega
              rw [he]
              exact List.getElem?_concat_length t.positions pos
      · rw [if_neg (by simpa using hts)] at h
        simp at h

/-- C9 counterexample: appending a position with a timestamp earlier than
the previous one raises inside append_position after the position was
already appended, leaving 2 positions but 0 segments, which violates the
claimed invariant. -/
theorem C9_counterexample_failed_append :
    ¬ (stateAfter (stateAfter emptyTrack caArgs1) caArgs2).invariantHolds :=
  fun h => absurd h.1 (by decide)

/-- C9 (amended): after any sequence of successful append_position calls
on an initially empty Track, there is one segment fewer than positions
(none for at most one position) and segment i connects positions i and
i+1; a call that raises because its timestamp precedes the previous one
instead leaves a dangling position without a linking segment. -/
theorem C9_track_invariant (as : List PositionArgs) (t2 : Track)
    (h : appendAllOk emptyTrack as = some t2) : t2.invariantHolds := by
  have hstep : ∀ (bs : List PositionArgs) (t t2 : Track), t.invariantHolds →
      appendAllOk t bs = some t2 → t2.invariantHolds := by
    intro bs
    induction bs with
    | nil =>
      intro t t2 hinv hh
      have hh2 : some t = some t2 := hh
      obtain rfl := Option.some.inj hh2
      exact hinv
    | cons a rest ih =>
      intro t t2 hinv hh
      cases happ : t.appendPosition a with
      | ok t3 =>
        have hfold : appendAllOk t (a :: rest) = appendAllOk t3 rest := by
          show (match t.appendPosition a with
                | .ok t4 => appendAllOk t4 rest
                | .error _ => none) = appendAllOk t3 rest
          rw [happ]
        rw [hfold] at hh
        exact ih t3 t2 (appendPosition_ok_invariant hinv happ) hh
      | error t3 =>
        have hfold : appendAllOk t (a :: rest) = none := by
          show (match t.appendPosition a with
                | .ok t4 => appendAllOk t4 rest
                | .error _ => none) = none
          rw [happ]
        rw [hfold] at hh
        exact absurd hh (by simp)
  refine hstep as emptyTrack t2 ⟨rfl, ?_⟩ h
  intro i s hseg
  simp [emptyTrack] at hseg

/-- Witness for C9 at a concrete two-element sequence with increasing
timestamps. -/
theorem C9_track_invariant_witness :
    Track.invariantHolds ⟨[caPos1, caPos3], [⟨caPos1, caPos3⟩]⟩ :=
  C9_track_invariant [caArgs1, caArgs3] ⟨[caPos1, caPos3], [⟨caPos1, caPos3⟩]⟩
    (by decide)

/-- C10: Position equality compares only ts, lon, lat, cog, heading,
tide_flow and tide_bearing, so two Positions differing only in sog (and
therefore in the derived stw) compare equal. -/
theorem C10_position_eq_ignores_sog :
    (∀ (p : Position) (s : ℚ), Position.attrEq p { p with sog := s } = true)
    ∧ (∀ p q : Position, Position.attrEq p q = true
        ↔ (p.ts = q.ts ∧ p.lon = q.lon ∧ p.lat = q.lat ∧ p.cog = q.cog
           ∧ p.heading = q.heading ∧ p.tideFlow = q.tideFlow
           ∧ p.tideBearing = q.tideBearing)) := by
  constructor
  · intro p s
    simp [Position.attrEq]
  · intro p q
    simp [Position.attrEq, and_assoc]

end Poeminv
